import Mathlib

/-!
Verification of the casbin pgx adapter (filtered loading, schema bootstrap,
constructors) against its natural-language specification.

The Go source is shallowly embedded: a persisted policy row becomes `Row`
(`sql.NullString` becomes `Option String`), the squirrel query built by
`loadFilteredPolicies` becomes a `SelectQuery` (a list of membership
predicates plus the fixed `ORDER BY id`), the database table becomes a
`List Row`, and external effects (driver failures, DDL execution) are
modelled with explicit oracles and a schema state.
-/

namespace PgxAdapter

/-- One persisted policy rule row of the `casbin_rule` table: `id SERIAL
PRIMARY KEY`, `ptype` non-null, `v0..v5` nullable (`sql.NullString`). -/
structure Row where
  id : Nat
  ptype : String
  v0 : Option String
  v1 : Option String
  v2 : Option String
  v3 : Option String
  v4 : Option String
  v5 : Option String
deriving DecidableEq, Repr

/-- Go struct `Filter` from the source: per-column allow-lists for `ptype, v0..v5`. -/
structure Filter where
  Ptype : List String
  V0 : List String
  V1 : List String
  V2 : List String
  V3 : List String
  V4 : List String
  V5 : List String
deriving DecidableEq, Repr

/-- Go struct `BatchFilter` from the source: wraps multiple filters for OR-based
filtering. -/
structure BatchFilter where
  Filters : List Filter
deriving DecidableEq, Repr

/-- The columns a filter predicate can constrain. -/
inductive Col
  | ptype
  | v0
  | v1
  | v2
  | v3
  | v4
  | v5
deriving DecidableEq, Repr

/-- The value a row holds in a column; `ptype` is non-null. -/
def colValue (r : Row) : Col → Option String
  | .ptype => some r.ptype
  | .v0 => r.v0
  | .v1 => r.v1
  | .v2 => r.v2
  | .v3 => r.v3
  | .v4 => r.v4
  | .v5 => r.v5

/-- A WHERE predicate as squirrel builds it: `sq.Eq{col: vals}` with a
non-empty slice renders as `col IN (vals...)`. -/
inductive Pred
  | eqIn (col : Col) (vals : List String)
deriving DecidableEq, Repr

/-- SQL semantics of `col IN (vals...)` on a possibly NULL column value:
a NULL compares as unknown and is never selected. -/
def evalPred (r : Row) : Pred → Bool
  | .eqIn c vals =>
    match colValue r c with
    | some v => vals.contains v
    | none => false

/-- The select query `loadFilteredPolicies` builds: `SELECT ... FROM table
ORDER BY id` plus one conjunct per non-empty filter list. Only the WHERE
clauses vary, so only they are recorded. -/
structure SelectQuery where
  whereClauses : List Pred
deriving DecidableEq, Repr

/-- The query construction of `loadFilteredPolicies`: starting from the bare
select, each non-empty column list appends one membership conjunct, in the
order ptype, v0, v1, v2, v3, v4, v5. -/
def buildFilteredQuery (f : Filter) : SelectQuery :=
  let ws : List Pred := []
  let ws := if f.Ptype.length > 0 then ws ++ [Pred.eqIn Col.ptype f.Ptype] else ws
  let ws := if f.V0.length > 0 then ws ++ [Pred.eqIn Col.v0 f.V0] else ws
  let ws := if f.V1.length > 0 then ws ++ [Pred.eqIn Col.v1 f.V1] else ws
  let ws := if f.V2.length > 0 then ws ++ [Pred.eqIn Col.v2 f.V2] else ws
  let ws := if f.V3.length > 0 then ws ++ [Pred.eqIn Col.v3 f.V3] else ws
  let ws := if f.V4.length > 0 then ws ++ [Pred.eqIn Col.v4 f.V4] else ws
  let ws := if f.V5.length > 0 then ws ++ [Pred.eqIn Col.v5 f.V5] else ws
  { whereClauses := ws }

/-- Primary-key order on rows. -/
def rowLe (a b : Row) : Prop := a.id ≤ b.id

instance : DecidableRel rowLe := fun a b => Nat.decLe a.id b.id

instance : IsTotal Row rowLe := ⟨fun a b => Nat.le_total a.id b.id⟩

instance : IsTrans Row rowLe := ⟨fun _ _ _ h h2 => Nat.le_trans h h2⟩

/-- Database semantics of executing a built select against a table: the rows
satisfying every WHERE conjunct, ordered by the primary key `id` ascending
(`ORDER BY id`). -/
def runSelect (table : List Row) (q : SelectQuery) : List Row :=
  List.insertionSort rowLe (table.filter (fun r => q.whereClauses.all (evalPred r)))

/-- The row-to-policy-line mapping of `loadFilteredPolicies`: start from
`[ptype]` and append each of `v0..v5` exactly when it scanned non-NULL. -/
def lineOfRow (r : Row) : List String :=
  let line := [r.ptype]
  let line := match r.v0 with | some s => line ++ [s] | none => line
  let line := match r.v1 with | some s => line ++ [s] | none => line
  let line := match r.v2 with | some s => line ++ [s] | none => line
  let line := match r.v3 with | some s => line ++ [s] | none => line
  let line := match r.v4 with | some s => line ++ [s] | none => line
  let line := match r.v5 with | some s => line ++ [s] | none => line
  line

/-- The six nullable value columns of a row, in order. -/
def vcols (r : Row) : List (Option String) := [r.v0, r.v1, r.v2, r.v3, r.v4, r.v5]

/-- Membership of a possibly NULL column value in an allow-list: a NULL value
is contained in no list. -/
def containsVal (vals : List String) : Option String → Bool
  | some v => vals.contains v
  | none => false

/-- Following the spec's words (C1): a rule matches a filter iff every
non-empty column list of the filter contains the rule's value in that
column; an empty list imposes no constraint. -/
def matchesFilterSpec (f : Filter) (r : Row) : Bool :=
  (f.Ptype.isEmpty || f.Ptype.contains r.ptype) &&
  (f.V0.isEmpty || containsVal f.V0 r.v0) &&
  (f.V1.isEmpty || containsVal f.V1 r.v1) &&
  (f.V2.isEmpty || containsVal f.V2 r.v2) &&
  (f.V3.isEmpty || containsVal f.V3 r.v3) &&
  (f.V4.isEmpty || containsVal f.V4 r.v4) &&
  (f.V5.isEmpty || containsVal f.V5 r.v5)

/-- Following the spec's words (C2): the line `[ptype, v0, v1, ...]`
truncated at the last non-null trailing value, a NULL within the kept
prefix rendering as the empty string (the zero value of a `NullString`). -/
def truncatedLineSpec (r : Row) : List String :=
  r.ptype :: (((vcols r).reverse.dropWhile Option.isNone).reverse).map (fun o => o.getD "")

/-- A cancellation context. `context.Background()` is the never-cancelled
context. The adapter code never inspects the context itself; it only hands
it to the driver, which the oracles in `Env` model. -/
structure Ctx where
  cancelled : Bool
deriving DecidableEq, Repr

/-- The Go `context.Background()` value. -/
def background : Ctx := ⟨false⟩

/-- A policy line fed to the model. -/
abbrev Line := List String

/-- The external world of a filtered load: the table contents and driver
failure oracles (query/scan errors for one filtered select, and for the
full load). -/
structure Env where
  table : List Row
  queryErr : Ctx → Filter → Option String
  loadAllErr : Ctx → Option String

/-- Observable events of one `LoadFilteredPolicyCtx` call, in order: flag
writes, per-filter query executions, a delegated full load. -/
inductive Event
  | setFlag (b : Bool)
  | filterQuery (f : Filter)
  | fullLoad
deriving DecidableEq, Repr

/-- Function `loadFilteredPolicies`: build the filtered query, run it, and feed each
selected row's line into the model (modelled as appending to the list of
loaded lines). A driver or scan failure, modelled by the oracle, surfaces
as an error. -/
def loadFilteredPolicies (env : Env) (ctx : Ctx) (m : List Line) (filterValue : Filter) :
    Except String (List Line) :=
  match env.queryErr ctx filterValue with
  | some e => Except.error e
  | none =>
    Except.ok (m ++ (runSelect env.table (buildFilteredQuery filterValue)).map lineOfRow)

/-- The loop of `LoadFilteredPolicyCtx` over the filters of the batch:
each filter is loaded in order; the first failure aborts the loop.
Returns the events, the model contents, and the error if any. -/
def loadFiltersLoop (env : Env) (ctx : Ctx) :
    List Line → List Filter → List Event × List Line × Option String
  | m, [] => ([], m, none)
  | m, f :: fs =>
    match loadFilteredPolicies env ctx m f with
    | Except.error e => ([Event.filterQuery f], m, some e)
    | Except.ok m2 =>
      let rest := loadFiltersLoop env ctx m2 fs
      (Event.filterQuery f :: rest.1, rest.2)

/-- The dynamic `filter any` argument of `LoadFilteredPolicyCtx`: nil, one
of the five recognized shapes, or any other non-nil value (`other`). -/
inductive FilterArg
  | nilArg
  | single (f : Filter)
  | singlePtr (f : Filter)
  | batch (b : BatchFilter)
  | batchPtr (b : BatchFilter)
  | list (fs : List Filter)
  | other
deriving DecidableEq, Repr

/-- The type switch of `LoadFilteredPolicyCtx`: which list of filters a
recognized argument denotes; `none` for the rejected default case. -/
def switchFilters : FilterArg → Option (List Filter)
  | .single f => some [f]
  | .singlePtr f => some [f]
  | .batch b => some b.Filters
  | .batchPtr b => some b.Filters
  | .list fs => some fs
  | _ => none

/-- Modelled from the spec: `LoadPolicyCtx` (the full, unfiltered load) is
not among the provided source files. Per §4.2 it selects all rows ordered
by primary key ascending, maps each row to a policy line exactly as the
filtered loader does, and feeds the lines into the model; a driver failure
is modelled by the `loadAllErr` oracle. -/
def LoadPolicyCtxModel (env : Env) (ctx : Ctx) (m : List Line) :
    List Line × Option String :=
  match env.loadAllErr ctx with
  | some e => (m, some e)
  | none => (m ++ (List.insertionSort rowLe env.table).map lineOfRow, none)

/-- The outcome of one `LoadFilteredPolicyCtx` call: the event trace, the
final is-filtered flag, the final model contents, and the returned error. -/
structure Outcome where
  trace : List Event
  isFiltered : Bool
  model : List Line
  err : Option String
deriving DecidableEq, Repr

/-- Method `LoadFilteredPolicyCtx`: nil filter clears the flag and delegates to the
full load; a recognized filter shape sets the flag to true (under the lock)
and then loads each filter of the batch in order; anything else returns the
"invalid filter type" error with nothing executed. -/
def LoadFilteredPolicyCtx (env : Env) (ctx : Ctx) (isFiltered : Bool) (m : List Line)
    (filter : FilterArg) : Outcome :=
  match filter with
  | .nilArg =>
    let res := LoadPolicyCtxModel env ctx m
    { trace := [Event.setFlag false, Event.fullLoad], isFiltered := false,
      model := res.1, err := res.2 }
  | filter =>
    match switchFilters filter with
    | none => { trace := [], isFiltered := isFiltered, model := m,
                err := some "invalid filter type" }
    | some filters =>
      let r := loadFiltersLoop env ctx m filters
      { trace := Event.setFlag true :: r.1, isFiltered := true,
        model := r.2.1, err := r.2.2 }

/-- Method `LoadFilteredPolicy`: delegates to the Ctx variant at the background
context. -/
def LoadFilteredPolicy (env : Env) (isFiltered : Bool) (m : List Line)
    (filter : FilterArg) : Outcome :=
  LoadFilteredPolicyCtx env background isFiltered m filter

/-- Method `IsFilteredCtx`: reads the flag under the read lock; the context is not
consulted. -/
def IsFilteredCtx (ctx : Ctx) (isFiltered : Bool) : Bool := isFiltered

/-- Method `IsFiltered`: delegates to the Ctx variant at the background context. -/
def IsFiltered (isFiltered : Bool) : Bool := IsFilteredCtx background isFiltered

/-! ## Schema bootstrap and constructors -/

/-- One column declaration of the `CREATE TABLE` statement. -/
structure ColumnDef where
  name : String
  primaryKey : Bool
  notNull : Bool
  autoIncrement : Bool
deriving DecidableEq, Repr

/-- An expression a created index ranges over: a bare column, or
`COALESCE(column, <empty string>)` as in the uniqueness index. -/
inductive IndexExpr
  | col (name : String)
  | coalesceEmpty (name : String)
deriving DecidableEq, Repr

/-- The DDL statements `createTable` issues, kept structurally. -/
inductive DDLStmt
  | createTable (ifNotExists : Bool) (table : String) (cols : List ColumnDef)
  | createIndex (ifNotExists : Bool) (unique : Bool) (index : String) (table : String)
      (exprs : List IndexExpr)
deriving DecidableEq, Repr

/-- Whether a DDL statement carries the `IF NOT EXISTS` clause. -/
def ifNotExistsOf : DDLStmt → Bool
  | .createTable ine _ _ => ine
  | .createIndex ine _ _ _ _ => ine

/-- The columns of the `CREATE TABLE IF NOT EXISTS` literal in `createTable`:
`id SERIAL PRIMARY KEY`, `ptype VARCHAR(100) NOT NULL`, and nullable
`v0..v5 VARCHAR(100)`. -/
def casbinColumns : List ColumnDef :=
  [⟨"id", true, true, true⟩,
   ⟨"ptype", false, true, false⟩,
   ⟨"v0", false, false, false⟩,
   ⟨"v1", false, false, false⟩,
   ⟨"v2", false, false, false⟩,
   ⟨"v3", false, false, false⟩,
   ⟨"v4", false, false, false⟩,
   ⟨"v5", false, false, false⟩]

/-- The expressions of the unique composite index in `createTable`:
`(ptype, COALESCE(v0, <empty>), ..., COALESCE(v5, <empty>))`. -/
def uniqueIndexExprs : List IndexExpr :=
  [.col "ptype", .coalesceEmpty "v0", .coalesceEmpty "v1", .coalesceEmpty "v2",
   .coalesceEmpty "v3", .coalesceEmpty "v4", .coalesceEmpty "v5"]

/-- The `CREATE TABLE IF NOT EXISTS` statement for a table name. -/
def tableStmt (t : String) : DDLStmt := .createTable true t casbinColumns

/-- The `CREATE UNIQUE INDEX IF NOT EXISTS idx_<table>` statement. -/
def uniqueIndexStmt (t : String) : DDLStmt :=
  .createIndex true true ("idx_" ++ t) t uniqueIndexExprs

/-- Go `strings.Join(columns, sep)`. -/
def joinColumns (sep : String) (columns : List String) : String :=
  String.intercalate sep columns

/-- The deterministic name `createIndex` derives for a secondary index:
`idx_` + table name + `_` + underscore-joined column names. -/
def indexNameOf (tableName : String) (columns : List String) : String :=
  "idx_" ++ tableName ++ "_" ++ joinColumns "_" columns

/-- The non-unique `CREATE INDEX IF NOT EXISTS` statement `createIndex`
issues for one requested secondary index. -/
def createIndexStmt (tableName : String) (columns : List String) : DDLStmt :=
  .createIndex true false (indexNameOf tableName columns) tableName
    (columns.map IndexExpr.col)

/-- All DDL statements of one `createTable` bootstrap, in issue order. -/
def createTableStmts (tableName : String) (indexes : List (List String)) : List DDLStmt :=
  tableStmt tableName :: uniqueIndexStmt tableName ::
    indexes.map (createIndexStmt tableName)

/-- The database-side schema state: existing tables (name and columns) and
existing indexes (name, uniqueness, table, expressions), in creation
order. -/
structure PgSchema where
  tables : List (String × List ColumnDef)
  idxs : List (String × Bool × String × List IndexExpr)
deriving DecidableEq, Repr

/-- A schema with no tables and no indexes. -/
def emptySchema : PgSchema := ⟨[], []⟩

/-- PostgreSQL DDL semantics for the two statement shapes used here:
creating an object whose name already exists errors, unless the statement
says `IF NOT EXISTS`, in which case it is a no-op; otherwise the object is
added. -/
def applyStmt (s : PgSchema) : DDLStmt → Except String PgSchema
  | .createTable ine t cols =>
    if t ∈ s.tables.map Prod.fst then
      if ine then Except.ok s
      else Except.error ("relation " ++ t ++ " already exists")
    else Except.ok { s with tables := s.tables ++ [(t, cols)] }
  | .createIndex ine u n t exprs =>
    if n ∈ s.idxs.map Prod.fst then
      if ine then Except.ok s
      else Except.error ("relation " ++ n ++ " already exists")
    else Except.ok { s with idxs := s.idxs ++ [(n, u, t, exprs)] }

/-- The external world of the constructors: connect/ping failure oracles and
a driver-level DDL failure oracle (for failures other than name clashes,
e.g. permissions or I/O). -/
structure ConnEnv where
  openErr : Option String
  pingErr : Option String
  ddlErr : DDLStmt → Option String

/-- Observable events of a construction: opening the connection or pool,
the liveness probe, closing, and each executed DDL statement. -/
inductive ConnEvent
  | openConn (pool : Bool)
  | ping
  | closeConn
  | exec (st : DDLStmt)
deriving DecidableEq, Repr

/-- Executing one DDL statement: a driver-level failure (oracle) or a
schema-level failure aborts; otherwise the schema advances. -/
def execDDL (env : ConnEnv) (s : PgSchema) (st : DDLStmt) : PgSchema × Option String :=
  match env.ddlErr st with
  | some e => (s, some e)
  | none =>
    match applyStmt s st with
    | Except.error e => (s, some e)
    | Except.ok s2 => (s2, none)

/-- Method `createIndex`: build the statement for one requested secondary index and
execute it, wrapping any failure with the index name. -/
def createIndex (env : ConnEnv) (tableName : String) (columns : List String)
    (s : PgSchema) : List ConnEvent × PgSchema × Option String :=
  let st := createIndexStmt tableName columns
  let r := execDDL env s st
  match r.2 with
  | some e => ([ConnEvent.exec st], r.1,
      some ("failed to create index " ++ indexNameOf tableName columns ++ ": " ++ e))
  | none => ([ConnEvent.exec st], r.1, none)

/-- The loop of `createTable` over the requested secondary indexes, in the
order they were requested; the first failure aborts. -/
def createIndexLoop (env : ConnEnv) (tableName : String) :
    PgSchema → List (List String) → List ConnEvent × PgSchema × Option String
  | s, [] => ([], s, none)
  | s, columns :: rest =>
    let r := createIndex env tableName columns s
    match r.2.2 with
    | some e => (r.1, r.2.1, some e)
    | none =>
      let r2 := createIndexLoop env tableName r.2.1 rest
      (r.1 ++ r2.1, r2.2)

/-- Method `createTable`: issue the create-table statement, then the unique-index
statement, then each requested secondary index, wrapping failures as the
source does. -/
def createTable (env : ConnEnv) (tableName : String) (indexes : List (List String))
    (s : PgSchema) : List ConnEvent × PgSchema × Option String :=
  let tSt := tableStmt tableName
  let iSt := uniqueIndexStmt tableName
  let r1 := execDDL env s tSt
  match r1.2 with
  | some e => ([ConnEvent.exec tSt], r1.1, some ("failed to create table: " ++ e))
  | none =>
    let r2 := execDDL env r1.1 iSt
    match r2.2 with
    | some e => ([ConnEvent.exec tSt, ConnEvent.exec iSt], r2.1,
        some ("failed to create index: " ++ e))
    | none =>
      let r3 := createIndexLoop env tableName r2.1 indexes
      (ConnEvent.exec tSt :: ConnEvent.exec iSt :: r3.1, r3.2)

/-- The configurable state the `Option` functions mutate. -/
structure AdapterCfg where
  tableName : String
  database : String
  indexes : List (List String)
  usePool : Bool
deriving DecidableEq, Repr

/-- The defaults set by `NewAdapterWithConn` / `NewAdapterWithPool` before
options run: `casbin_rule`, `casbin`, no secondary indexes, no pool. -/
def defaultCfg : AdapterCfg := ⟨"casbin_rule", "casbin", [], false⟩

/-- The option constructors: `WithTableName`, `WithDatabaseName`,
`WithIndex`, `WithPool`. -/
inductive AdapterOption
  | withTableName (t : String)
  | withDatabaseName (d : String)
  | withIndex (columns : List String)
  | withPool
deriving DecidableEq, Repr

/-- Applying one option, as each `Option` closure does; `WithIndex` appends
only a non-empty column list. -/
def applyOption (a : AdapterCfg) : AdapterOption → AdapterCfg
  | .withTableName t => { a with tableName := t }
  | .withDatabaseName d => { a with database := d }
  | .withIndex columns =>
    if columns.length > 0 then { a with indexes := a.indexes ++ [columns] } else a
  | .withPool => { a with usePool := true }

/-- Applying a variadic option list in order. -/
def applyOptions (opts : List AdapterOption) (a : AdapterCfg) : AdapterCfg :=
  opts.foldl applyOption a

/-- The constructed adapter value (its immutable configuration; `poolBacked`
records which handle field is set). -/
structure Adapter where
  tableName : String
  database : String
  indexes : List (List String)
  usePool : Bool
  poolBacked : Bool
deriving DecidableEq, Repr

/-- Constructor `NewAdapterWithConn`: defaults, options, then schema bootstrap; a
bootstrap failure aborts with a wrapped error and no adapter. -/
def NewAdapterWithConn (env : ConnEnv) (s : PgSchema) (opts : List AdapterOption) :
    List ConnEvent × PgSchema × Except String Adapter :=
  let cfg := applyOptions opts defaultCfg
  let r := createTable env cfg.tableName cfg.indexes s
  match r.2.2 with
  | some e => (r.1, r.2.1, Except.error ("failed to create table: " ++ e))
  | none => (r.1, r.2.1,
      Except.ok ⟨cfg.tableName, cfg.database, cfg.indexes, cfg.usePool, false⟩)

/-- Constructor `NewAdapterWithPool`: defaults, options, then schema bootstrap; a
bootstrap failure aborts with a wrapped error and no adapter. -/
def NewAdapterWithPool (env : ConnEnv) (s : PgSchema) (opts : List AdapterOption) :
    List ConnEvent × PgSchema × Except String Adapter :=
  let cfg := applyOptions opts defaultCfg
  let r := createTable env cfg.tableName cfg.indexes s
  match r.2.2 with
  | some e => (r.1, r.2.1, Except.error ("failed to create table: " ++ e))
  | none => (r.1, r.2.1,
      Except.ok ⟨cfg.tableName, cfg.database, cfg.indexes, cfg.usePool, true⟩)

/-- Constructor `NewAdapter`: on the connection-string path, open a pool or a single
connection depending on the options, probe liveness with a ping (closing
the handle on failure), then delegate to the matching constructor. -/
def NewAdapter (env : ConnEnv) (s : PgSchema) (opts : List AdapterOption) :
    List ConnEvent × PgSchema × Except String Adapter :=
  let cfg := applyOptions opts defaultCfg
  if cfg.usePool then
    match env.openErr with
    | some e => ([ConnEvent.openConn true], s,
        Except.error ("failed to create connection pool: " ++ e))
    | none =>
      match env.pingErr with
      | some e => ([ConnEvent.openConn true, ConnEvent.ping, ConnEvent.closeConn], s,
          Except.error ("failed to ping database: " ++ e))
      | none =>
        let r := NewAdapterWithPool env s opts
        (ConnEvent.openConn true :: ConnEvent.ping :: r.1, r.2)
  else
    match env.openErr with
    | some e => ([ConnEvent.openConn false], s,
        Except.error ("failed to create connection: " ++ e))
    | none =>
      match env.pingErr with
      | some e => ([ConnEvent.openConn false, ConnEvent.ping, ConnEvent.closeConn], s,
          Except.error ("failed to ping database: " ++ e))
      | none =>
        let r := NewAdapterWithConn env s opts
        (ConnEvent.openConn false :: ConnEvent.ping :: r.1, r.2)

/-! ## Identifier quoting (`pgx.Identifier.Sanitize`) -/

/-- The quote-doubling of `strings.ReplaceAll(part, <quote>, <two quotes>)`
at the character level. -/
def escapeQuotes : List Char → List Char
  | [] => []
  | c :: cs => if c = '"' then '"' :: '"' :: escapeQuotes cs else c :: escapeQuotes cs

/-- The pgx identifier sanitizer for a single part: double every
embedded double quote and wrap the result in double quotes. -/
def sanitizeIdent (s : String) : String :=
  "\"" ++ String.mk (escapeQuotes s.data) ++ "\""

/-- A PostgreSQL lexer for the body of a quoted identifier: a doubled quote
is one literal quote, a single quote followed by nothing closes the
identifier, and a single quote followed by anything else is a lexing
failure for a standalone identifier token. -/
def parseQuotedBody : List Char → Option (List Char)
  | [] => none
  | c :: rest =>
    if c = '"' then
      match rest with
      | [] => some []
      | c2 :: rest2 =>
        if c2 = '"' then (parseQuotedBody rest2).map (fun l => '"' :: l)
        else none
    else (parseQuotedBody rest).map (fun l => c :: l)

/-- Reading back a standalone quoted identifier token: an opening quote,
then the body up to the closing quote. -/
def parseQuotedIdent (s : String) : Option String :=
  match s.data with
  | '"' :: rest => (parseQuotedBody rest).map String.mk
  | _ => none

/-- The exact SQL text `createIndex` builds for one secondary index. -/
def createIndexSQL (tableName : String) (columns : List String) : String :=
  "CREATE INDEX IF NOT EXISTS " ++ sanitizeIdent (indexNameOf tableName columns) ++
    " ON " ++ sanitizeIdent tableName ++ "(" ++
    joinColumns ", " (columns.map sanitizeIdent) ++ ")"

/-- A row whose first value column is NULL while the second is set: the
adapter's own writes never produce this shape, but the schema admits it. -/
def interiorNullRow : Row := ⟨1, "p", none, some "x", none, none, none, none⟩

/-- Whether the non-null value columns of a row form a prefix, i.e. all the
NULL columns are trailing (the only shape the adapter itself persists). -/
def trailingNullsOnly (r : Row) : Bool :=
  ((vcols r).dropWhile Option.isSome).all Option.isNone

/-- A rule with only `v0` set. -/
def onlyV0Row : Row := ⟨1, "p", some "alice", none, none, none, none, none⟩

/-- Two rows with different ptypes. -/
def pRow : Row := ⟨1, "p", some "a", none, none, none, none, none⟩

/-- Second sample row. -/
def gRow : Row := ⟨2, "g", some "b", none, none, none, none, none⟩

/-- An environment over a two-row table with a driver that never fails. -/
def unionEnv : Env := ⟨[pRow, gRow], fun _ _ => none, fun _ => none⟩

/-- Filter selecting ptype `p` rows. -/
def pFilter : Filter := ⟨["p"], [], [], [], [], [], []⟩

/-- Filter selecting ptype `g` rows. -/
def gFilter : Filter := ⟨["g"], [], [], [], [], [], []⟩

/-- An environment whose driver fails the query for `gFilter` only. -/
def failingEnv : Env :=
  ⟨[], fun _ f => if f = gFilter then some "scan failed" else none, fun _ => none⟩

/-- The schema resulting from one statement, with the error outcome leaving
the schema unchanged (under `IF NOT EXISTS` the error case does not
arise). -/
def applyStmtD (s : PgSchema) (st : DDLStmt) : PgSchema :=
  match applyStmt s st with
  | Except.ok t => t
  | Except.error _ => s

/-- Whether the object a statement would create already exists. -/
def stmtEstablished (s : PgSchema) : DDLStmt → Prop
  | .createTable _ t _ => t ∈ s.tables.map Prod.fst
  | .createIndex _ _ n _ _ => n ∈ s.idxs.map Prod.fst

/-- A constructor environment whose driver never fails. -/
def cleanConnEnv : ConnEnv := ⟨none, none, fun _ => none⟩

/-- A constructor environment whose liveness probe fails. -/
def pingFailEnv : ConnEnv := ⟨none, some "timeout", fun _ => none⟩

/-! ## Theorems -/

lemma evalPred_eqIn (r : Row) (c : Col) (vals : List String) :
    evalPred r (Pred.eqIn c vals) = containsVal vals (colValue r c) := by
  cases h : colValue r c <;> simp [evalPred, containsVal, h]

lemma all_addClause (ws : List Pred) (vals : List String) (c : Col) (r : Row) :
    (if vals.length > 0 then ws ++ [Pred.eqIn c vals] else ws).all (evalPred r) =
      (ws.all (evalPred r) && (vals.isEmpty || containsVal vals (colValue r c))) := by
  by_cases h : vals.length > 0
  · have hne : vals.isEmpty = false := by
      cases vals with
      | nil => simp at h
      | cons a l => rfl
    simp [h, hne, List.all_append, evalPred_eqIn]
  · have hnil : vals = [] := by
      cases vals with
      | nil => rfl
      | cons a l => simp at h
    simp [h, hnil]

lemma whereClauses_all_eq (f : Filter) (r : Row) :
    (buildFilteredQuery f).whereClauses.all (evalPred r) = matchesFilterSpec f r := by
  show (let ws : List Pred := []
    let ws := if f.Ptype.length > 0 then ws ++ [Pred.eqIn Col.ptype f.Ptype] else ws
    let ws := if f.V0.length > 0 then ws ++ [Pred.eqIn Col.v0 f.V0] else ws
    let ws := if f.V1.length > 0 then ws ++ [Pred.eqIn Col.v1 f.V1] else ws
    let ws := if f.V2.length > 0 then ws ++ [Pred.eqIn Col.v2 f.V2] else ws
    let ws := if f.V3.length > 0 then ws ++ [Pred.eqIn Col.v3 f.V3] else ws
    let ws := if f.V4.length > 0 then ws ++ [Pred.eqIn Col.v4 f.V4] else ws
    let ws := if f.V5.length > 0 then ws ++ [Pred.eqIn Col.v5 f.V5] else ws
    ws).all (evalPred r) = matchesFilterSpec f r
  simp only [all_addClause, colValue, matchesFilterSpec, List.all_nil, Bool.true_and,
    Bool.and_assoc, containsVal]

/-- C1: For every Filter and every table of rules, a filtered load selects
exactly the rows that match the filter — a rule matches iff every non-empty
column list of the filter (over ptype, v0..v5) contains the rule's value in
that column, an empty list imposing no constraint — and the selected rows
are returned ordered by primary key ascending; when the driver reports no
failure, exactly those rows' lines are fed into the model, in that order. -/
theorem loadFiltered_selects_matching_rows_in_id_order (env : Env) (ctx : Ctx)
    (m : List Line) (table : List Row) (f : Filter)
    (hq : env.queryErr ctx f = none) :
    (runSelect table (buildFilteredQuery f)).Perm (table.filter (matchesFilterSpec f)) ∧
    List.Sorted rowLe (runSelect table (buildFilteredQuery f)) ∧
    loadFilteredPolicies env ctx m f =
      Except.ok (m ++ (runSelect env.table (buildFilteredQuery f)).map lineOfRow) := by
  refine ⟨?_, ?_, ?_⟩
  · have h1 : table.filter (fun r => (buildFilteredQuery f).whereClauses.all (evalPred r)) =
        table.filter (matchesFilterSpec f) :=
      List.filter_congr (fun r _ => whereClauses_all_eq f r)
    rw [runSelect, h1]
    exact List.perm_insertionSort rowLe (table.filter (matchesFilterSpec f))
  · exact List.sorted_insertionSort rowLe _
  · simp [loadFilteredPolicies, hq]

/-- Witness for C1: a concrete filtered select over a two-row table keeps
exactly the matching row, sorted by id, and loads exactly its line. -/
theorem loadFiltered_selects_matching_rows_in_id_order_witness :
    (runSelect [gRow, pRow] (buildFilteredQuery pFilter)).Perm
      ([gRow, pRow].filter (matchesFilterSpec pFilter)) ∧
    List.Sorted rowLe (runSelect [gRow, pRow] (buildFilteredQuery pFilter)) ∧
    loadFilteredPolicies unionEnv background [] pFilter =
      Except.ok [["p", "a"]] := by
  have h := loadFiltered_selects_matching_rows_in_id_order unionEnv background []
    [gRow, pRow] pFilter rfl
  refine ⟨h.1, h.2.1, ?_⟩
  rw [h.2.2]
  exact congrArg Except.ok (by decide)

/-- C2 counterexample: on a row with an interior NULL (`v0` NULL, `v1` set)
the emitted line is not the `[ptype, v0, v1, ...]` prefix truncated at the
last non-null value — the code drops the NULL column entirely instead of
keeping it inside the prefix. -/
theorem lineOfRow_skips_interior_null_cex :
    lineOfRow interiorNullRow ≠ truncatedLineSpec interiorNullRow := by decide

/-- C2 amended: the policy line emitted for a scanned row is `[ptype]`
followed by the values of all non-NULL columns of `v0..v5` in order — every
NULL column is omitted, wherever it occurs, not only the trailing ones.
For rows whose non-NULL columns form a prefix (the shape the adapter
writes), this coincides with truncation at the last non-null value, so
unset trailing columns are omitted and a rule with only `v0` set does not
reintroduce trailing empty fields for `v1..v5`; `v0..v5` are treated as
nullable during scanning. -/
theorem lineOfRow_omits_null_columns (r : Row) :
    lineOfRow r = r.ptype :: (vcols r).filterMap id ∧
    (trailingNullsOnly r = true → lineOfRow r = truncatedLineSpec r) := by
  obtain ⟨i, pt, v0, v1, v2, v3, v4, v5⟩ := r
  constructor
  · rcases v0 <;> rcases v1 <;> rcases v2 <;> rcases v3 <;> rcases v4 <;> rcases v5 <;> rfl
  · intro h
    rcases v0 <;> rcases v1 <;> rcases v2 <;> rcases v3 <;> rcases v4 <;> rcases v5 <;>
      first
        | rfl
        | (exact absurd h (by simp [trailingNullsOnly, vcols]))

/-- Witness for C2 (amended): on a rule with only `v0` set the emitted line
is the two-element truncation, with no trailing empty fields. -/
theorem lineOfRow_omits_null_columns_witness :
    lineOfRow onlyV0Row = onlyV0Row.ptype :: (vcols onlyV0Row).filterMap id ∧
    lineOfRow onlyV0Row = truncatedLineSpec onlyV0Row :=
  ⟨(lineOfRow_omits_null_columns onlyV0Row).1,
   (lineOfRow_omits_null_columns onlyV0Row).2 (by decide)⟩

/-- C4: `LoadFilteredPolicyCtx` accepts exactly a Filter value, a pointer to
a Filter, a BatchFilter value, a pointer to a BatchFilter, or a plain list
of Filters; for every other non-nil filter argument it returns the
"invalid filter type" error immediately, with no partial execution: no
event occurs (in particular no query) and the adapter's state — the
is-filtered flag — and the model are unchanged. -/
theorem invalid_filter_type_rejected_without_execution (env : Env) (ctx : Ctx)
    (isF : Bool) (m : List Line) :
    LoadFilteredPolicyCtx env ctx isF m FilterArg.other =
      { trace := [], isFiltered := isF, model := m, err := some "invalid filter type" } ∧
    (∀ f, (LoadFilteredPolicyCtx env ctx isF m (FilterArg.single f)).trace.head? =
      some (Event.setFlag true)) ∧
    (∀ f, (LoadFilteredPolicyCtx env ctx isF m (FilterArg.singlePtr f)).trace.head? =
      some (Event.setFlag true)) ∧
    (∀ b, (LoadFilteredPolicyCtx env ctx isF m (FilterArg.batch b)).trace.head? =
      some (Event.setFlag true)) ∧
    (∀ b, (LoadFilteredPolicyCtx env ctx isF m (FilterArg.batchPtr b)).trace.head? =
      some (Event.setFlag true)) ∧
    (∀ fs, (LoadFilteredPolicyCtx env ctx isF m (FilterArg.list fs)).trace.head? =
      some (Event.setFlag true)) :=
  ⟨rfl, fun _ => rfl, fun _ => rfl, fun _ => rfl, fun _ => rfl, fun _ => rfl⟩

/-- C6: calling `LoadFilteredPolicyCtx` with a nil filter sets the
is-filtered flag to false and behaves as the full, unfiltered load: same
model contents, same error, with the flag cleared before the delegated
load. -/
theorem nil_filter_clears_flag_and_delegates_to_loadAll (env : Env) (ctx : Ctx)
    (isF : Bool) (m : List Line) :
    (LoadFilteredPolicyCtx env ctx isF m FilterArg.nilArg).isFiltered = false ∧
    (LoadFilteredPolicyCtx env ctx isF m FilterArg.nilArg).model =
      (LoadPolicyCtxModel env ctx m).1 ∧
    (LoadFilteredPolicyCtx env ctx isF m FilterArg.nilArg).err =
      (LoadPolicyCtxModel env ctx m).2 ∧
    (LoadFilteredPolicyCtx env ctx isF m FilterArg.nilArg).trace =
      [Event.setFlag false, Event.fullLoad] :=
  ⟨rfl, rfl, rfl, rfl⟩

/-- C10: the non-context variants are definitionally the context variants at
the background (never-cancelled) context, and `IsFilteredCtx` ignores its
context argument. -/
theorem nonctx_variants_equal_ctx_at_background :
    (∀ env isF m arg, LoadFilteredPolicy env isF m arg =
      LoadFilteredPolicyCtx env background isF m arg) ∧
    (∀ ctx isF, IsFilteredCtx ctx isF = IsFiltered isF) ∧
    (∀ ctx1 ctx2 isF, IsFilteredCtx ctx1 isF = IsFilteredCtx ctx2 isF) :=
  ⟨fun _ _ _ _ => rfl, fun _ _ => rfl, fun _ _ _ => rfl⟩

lemma loadFiltersLoop_ok (env : Env) (ctx : Ctx) (fs : List Filter)
    (h : ∀ f ∈ fs, env.queryErr ctx f = none) :
    ∀ m, loadFiltersLoop env ctx m fs =
      (fs.map Event.filterQuery,
       m ++ (fs.map fun f =>
         (runSelect env.table (buildFilteredQuery f)).map lineOfRow).flatten,
       none) := by
  induction fs with
  | nil => intro m; simp [loadFiltersLoop]
  | cons f fs ih =>
    intro m
    have hf : env.queryErr ctx f = none := h f (by simp)
    have hrest : ∀ g ∈ fs, env.queryErr ctx g = none := fun g hg => h g (by simp [hg])
    simp [loadFiltersLoop, loadFilteredPolicies, hf, ih hrest, List.append_assoc]

/-- C3: loading a BatchFilter applies each contained Filter independently in
order and unions the results into the model: the final model is the input
model followed by the concatenation, filter by filter, of the matching
rows' lines. In particular a batch of two filters matching disjoint row
subsets yields the union of both subsets with no omission, and a row
matched by more than one filter contributes one line per matching filter
(count adds up; no deduplication by the adapter). -/
theorem batchFilter_loads_union_in_order (env : Env) (ctx : Ctx) (isF : Bool)
    (m : List Line) (fs : List Filter)
    (h : ∀ f ∈ fs, env.queryErr ctx f = none) :
    (LoadFilteredPolicyCtx env ctx isF m (FilterArg.batch ⟨fs⟩)).model =
      m ++ (fs.map fun f =>
        (runSelect env.table (buildFilteredQuery f)).map lineOfRow).flatten ∧
    (∀ l : Line, ((LoadFilteredPolicyCtx env ctx isF m (FilterArg.batch ⟨fs⟩)).model).count l =
      m.count l + ((fs.map fun f =>
        (runSelect env.table (buildFilteredQuery f)).map lineOfRow).flatten).count l) ∧
    (LoadFilteredPolicyCtx env ctx isF m (FilterArg.batch ⟨fs⟩)).err = none := by
  have hl := loadFiltersLoop_ok env ctx fs h m
  refine ⟨?_, ?_, ?_⟩
  · simp [LoadFilteredPolicyCtx, switchFilters, hl]
  · intro l
    simp [LoadFilteredPolicyCtx, switchFilters, hl, List.count_append]
  · simp [LoadFilteredPolicyCtx, switchFilters, hl]

/-- Witness for C3: two filters matching disjoint subsets of a two-row table
load exactly the union of both subsets, in order, with no error. -/
theorem batchFilter_loads_union_in_order_witness :
    (LoadFilteredPolicyCtx unionEnv background false []
      (FilterArg.batch ⟨[pFilter, gFilter]⟩)).model = [["p", "a"], ["g", "b"]] ∧
    (LoadFilteredPolicyCtx unionEnv background false []
      (FilterArg.batch ⟨[pFilter, gFilter]⟩)).err = none := by
  have h := batchFilter_loads_union_in_order unionEnv background false []
    [pFilter, gFilter] (fun f _ => rfl)
  refine ⟨?_, h.2.2⟩
  rw [h.1]
  decide

lemma loadFiltersLoop_trace_queries (env : Env) (ctx : Ctx) :
    ∀ (fs : List Filter) (m : List Line),
      ∀ e ∈ (loadFiltersLoop env ctx m fs).1, ∃ f, e = Event.filterQuery f := by
  intro fs
  induction fs with
  | nil => intro m e he; simp [loadFiltersLoop] at he
  | cons f fs ih =>
    intro m e he
    rcases hq : loadFilteredPolicies env ctx m f with e2 | m2
    · rw [loadFiltersLoop, hq] at he
      simp at he
      exact ⟨f, he⟩
    · rw [loadFiltersLoop, hq] at he
      simp at he
      rcases he with he | he
      · exact ⟨f, he⟩
      · exact ih m2 e he

/-- C5: for every filtered load whose argument is one of the recognized
filter shapes, the is-filtered flag is true in the outcome and — in the
event trace — the flag write to true is the first event, strictly before
every per-filter query execution (all remaining events are query
executions), so a concurrent reader observes true promptly. This holds
regardless of per-filter failures, so `IsFilteredCtx` reads true after a
load whose later filter failed. -/
theorem isFiltered_set_before_queries (env : Env) (ctx : Ctx) (isF : Bool)
    (m : List Line) (arg : FilterArg) (fs : List Filter)
    (h : switchFilters arg = some fs) :
    (LoadFilteredPolicyCtx env ctx isF m arg).isFiltered = true ∧
    IsFilteredCtx ctx (LoadFilteredPolicyCtx env ctx isF m arg).isFiltered = true ∧
    ∃ rest, (LoadFilteredPolicyCtx env ctx isF m arg).trace = Event.setFlag true :: rest ∧
      ∀ e ∈ rest, ∃ f, e = Event.filterQuery f := by
  cases arg with
  | nilArg => simp [switchFilters] at h
  | other => simp [switchFilters] at h
  | single f =>
    exact ⟨rfl, rfl, (loadFiltersLoop env ctx m [f]).1, rfl,
      loadFiltersLoop_trace_queries env ctx [f] m⟩
  | singlePtr f =>
    exact ⟨rfl, rfl, (loadFiltersLoop env ctx m [f]).1, rfl,
      loadFiltersLoop_trace_queries env ctx [f] m⟩
  | batch b =>
    exact ⟨rfl, rfl, (loadFiltersLoop env ctx m b.Filters).1, rfl,
      loadFiltersLoop_trace_queries env ctx b.Filters m⟩
  | batchPtr b =>
    exact ⟨rfl, rfl, (loadFiltersLoop env ctx m b.Filters).1, rfl,
      loadFiltersLoop_trace_queries env ctx b.Filters m⟩
  | list fs2 =>
    exact ⟨rfl, rfl, (loadFiltersLoop env ctx m fs2).1, rfl,
      loadFiltersLoop_trace_queries env ctx fs2 m⟩

/-- Witness for C5: in a two-filter batch whose second filter fails, the
outcome still reports the is-filtered flag as true alongside the error. -/
theorem isFiltered_set_before_queries_witness :
    (LoadFilteredPolicyCtx failingEnv background false []
      (FilterArg.batch ⟨[pFilter, gFilter]⟩)).isFiltered = true ∧
    (LoadFilteredPolicyCtx failingEnv background false []
      (FilterArg.batch ⟨[pFilter, gFilter]⟩)).err = some "scan failed" :=
  ⟨(isFiltered_set_before_queries failingEnv background false []
      (FilterArg.batch ⟨[pFilter, gFilter]⟩) [pFilter, gFilter] rfl).1,
   by decide⟩

lemma applyStmt_ok_of_ine (s : PgSchema) (st : DDLStmt) (h : ifNotExistsOf st = true) :
    applyStmt s st = Except.ok (applyStmtD s st) := by
  cases st with
  | createTable ine t cols =>
    by_cases h2 : t ∈ s.tables.map Prod.fst <;>
      simp_all [applyStmt, applyStmtD, ifNotExistsOf]
  | createIndex ine u n t exprs =>
    by_cases h2 : n ∈ s.idxs.map Prod.fst <;>
      simp_all [applyStmt, applyStmtD, ifNotExistsOf]

lemma stmtEstablished_applyStmtD_self (s : PgSchema) (st : DDLStmt) :
    stmtEstablished (applyStmtD s st) st := by
  cases st with
  | createTable ine t cols =>
    by_cases h2 : t ∈ s.tables.map Prod.fst
    · cases ine <;> simp [applyStmt, applyStmtD, stmtEstablished, h2]
    · simp [applyStmt, applyStmtD, stmtEstablished, h2]
  | createIndex ine u n t exprs =>
    by_cases h2 : n ∈ s.idxs.map Prod.fst
    · cases ine <;> simp [applyStmt, applyStmtD, stmtEstablished, h2]
    · simp [applyStmt, applyStmtD, stmtEstablished, h2]

lemma applyStmtD_tables (s : PgSchema) (st : DDLStmt) :
    (applyStmtD s st).tables = s.tables ∨
      ∃ x, (applyStmtD s st).tables = s.tables ++ [x] ∧ x.1 ∉ s.tables.map Prod.fst := by
  cases st with
  | createTable ine t cols =>
    by_cases h2 : t ∈ s.tables.map Prod.fst
    · cases ine <;> simp [applyStmt, applyStmtD, h2]
    · exact Or.inr ⟨(t, cols), by simp [applyStmt, applyStmtD, h2], h2⟩
  | createIndex ine u n t exprs =>
    by_cases h2 : n ∈ s.idxs.map Prod.fst
    · cases ine <;> simp [applyStmt, applyStmtD, h2]
    · left; simp [applyStmt, applyStmtD, h2]

lemma applyStmtD_idxs (s : PgSchema) (st : DDLStmt) :
    (applyStmtD s st).idxs = s.idxs ∨
      ∃ x, (applyStmtD s st).idxs = s.idxs ++ [x] ∧ x.1 ∉ s.idxs.map Prod.fst := by
  cases st with
  | createTable ine t cols =>
    by_cases h2 : t ∈ s.tables.map Prod.fst
    · cases ine <;> simp [applyStmt, applyStmtD, h2]
    · left; simp [applyStmt, applyStmtD, h2]
  | createIndex ine u n t exprs =>
    by_cases h2 : n ∈ s.idxs.map Prod.fst
    · cases ine <;> simp [applyStmt, applyStmtD, h2]
    · exact Or.inr ⟨(n, u, t, exprs), by simp [applyStmt, applyStmtD, h2], h2⟩

lemma stmtEstablished_mono (s : PgSchema) (st st2 : DDLStmt)
    (h : stmtEstablished s st) : stmtEstablished (applyStmtD s st2) st := by
  cases st with
  | createTable ine t cols =>
    rcases applyStmtD_tables s st2 with ht | ⟨x, ht, _⟩ <;>
      simp_all [stmtEstablished]
  | createIndex ine u n t exprs =>
    rcases applyStmtD_idxs s st2 with ht | ⟨x, ht, _⟩ <;>
      simp_all [stmtEstablished]

lemma applyStmtD_noop (s : PgSchema) (st : DDLStmt) (hine : ifNotExistsOf st = true)
    (hest : stmtEstablished s st) : applyStmtD s st = s := by
  cases st <;> simp_all [applyStmt, applyStmtD, ifNotExistsOf, stmtEstablished]

lemma stmtEstablished_foldl (l : List DDLStmt) :
    ∀ (s : PgSchema) (st : DDLStmt), stmtEstablished s st →
      stmtEstablished (l.foldl applyStmtD s) st := by
  induction l with
  | nil => intro s st h; exact h
  | cons a l ih => intro s st h; exact ih _ _ (stmtEstablished_mono s st a h)

lemma stmtEstablished_all_foldl (l : List DDLStmt) :
    ∀ s, ∀ st ∈ l, stmtEstablished (l.foldl applyStmtD s) st := by
  induction l with
  | nil => intro s st h; simp at h
  | cons a l ih =>
    intro s st hmem
    rcases List.mem_cons.mp hmem with h | h
    · subst h
      simp only [List.foldl_cons]
      exact stmtEstablished_foldl l _ _ (stmtEstablished_applyStmtD_self s st)
    · exact ih (applyStmtD s a) st h

lemma foldl_applyStmtD_noop (l : List DDLStmt) :
    ∀ s2, (∀ st ∈ l, ifNotExistsOf st = true ∧ stmtEstablished s2 st) →
      l.foldl applyStmtD s2 = s2 := by
  induction l with
  | nil => intro s2 _; rfl
  | cons a l ih =>
    intro s2 h
    have ha := h a (by simp)
    have h1 : applyStmtD s2 a = s2 := applyStmtD_noop s2 a ha.1 ha.2
    simp only [List.foldl_cons, h1]
    exact ih s2 (fun st hst => h st (by simp [hst]))

lemma foldl_applyStmtD_idempotent (l : List DDLStmt) (s : PgSchema)
    (hine : ∀ st ∈ l, ifNotExistsOf st = true) :
    l.foldl applyStmtD (l.foldl applyStmtD s) = l.foldl applyStmtD s :=
  foldl_applyStmtD_noop l _
    (fun st hst => ⟨hine st hst, stmtEstablished_all_foldl l s st hst⟩)

lemma applyStmtD_tables_nodup (s : PgSchema) (st : DDLStmt)
    (h : (s.tables.map Prod.fst).Nodup) :
    ((applyStmtD s st).tables.map Prod.fst).Nodup := by
  rcases applyStmtD_tables s st with ht | ⟨x, ht, hx⟩
  · rw [ht]; exact h
  · rw [ht, List.map_append]
    simp only [List.map_cons, List.map_nil]
    rw [List.nodup_append]
    refine ⟨h, List.nodup_singleton _, ?_⟩
    intro a ha hax
    rw [List.mem_singleton] at hax
    subst hax
    exact hx ha

lemma applyStmtD_idxs_nodup (s : PgSchema) (st : DDLStmt)
    (h : (s.idxs.map Prod.fst).Nodup) :
    ((applyStmtD s st).idxs.map Prod.fst).Nodup := by
  rcases applyStmtD_idxs s st with ht | ⟨x, ht, hx⟩
  · rw [ht]; exact h
  · rw [ht, List.map_append]
    simp only [List.map_cons, List.map_nil]
    rw [List.nodup_append]
    refine ⟨h, List.nodup_singleton _, ?_⟩
    intro a ha hax
    rw [List.mem_singleton] at hax
    subst hax
    exact hx ha

lemma foldl_tables_nodup (l : List DDLStmt) :
    ∀ s, (s.tables.map Prod.fst).Nodup →
      ((l.foldl applyStmtD s).tables.map Prod.fst).Nodup := by
  induction l with
  | nil => intro s h; exact h
  | cons a l ih => intro s h; exact ih _ (applyStmtD_tables_nodup s a h)

lemma foldl_idxs_nodup (l : List DDLStmt) :
    ∀ s, (s.idxs.map Prod.fst).Nodup →
      ((l.foldl applyStmtD s).idxs.map Prod.fst).Nodup := by
  induction l with
  | nil => intro s h; exact h
  | cons a l ih => intro s h; exact ih _ (applyStmtD_idxs_nodup s a h)

lemma execDDL_of_ine (env : ConnEnv) (hd : ∀ st, env.ddlErr st = none)
    (s : PgSchema) (st : DDLStmt) (hine : ifNotExistsOf st = true) :
    execDDL env s st = (applyStmtD s st, none) := by
  simp [execDDL, hd st, applyStmt_ok_of_ine s st hine]

lemma createIndexLoop_of_ine (env : ConnEnv) (hd : ∀ st, env.ddlErr st = none)
    (t : String) :
    ∀ (idxs : List (List String)) (s : PgSchema),
      createIndexLoop env t s idxs =
        (idxs.map (fun columns => ConnEvent.exec (createIndexStmt t columns)),
         (idxs.map (createIndexStmt t)).foldl applyStmtD s, none) := by
  intro idxs
  induction idxs with
  | nil => intro s; rfl
  | cons columns rest ih =>
    intro s
    have h1 : createIndex env t columns s =
        ([ConnEvent.exec (createIndexStmt t columns)],
         applyStmtD s (createIndexStmt t columns), none) := by
      simp [createIndex, execDDL_of_ine env hd s (createIndexStmt t columns) rfl]
    simp [createIndexLoop, h1, ih]

lemma createTable_of_ine (env : ConnEnv) (hd : ∀ st, env.ddlErr st = none)
    (t : String) (idxs : List (List String)) (s : PgSchema) :
    createTable env t idxs s =
      ((createTableStmts t idxs).map ConnEvent.exec,
       (createTableStmts t idxs).foldl applyStmtD s, none) := by
  simp [createTable, execDDL_of_ine env hd s (tableStmt t) rfl,
    execDDL_of_ine env hd _ (uniqueIndexStmt t) rfl,
    createIndexLoop_of_ine env hd t idxs, createTableStmts, List.foldl_cons]

lemma createTableStmts_all_ine (t : String) (idxs : List (List String)) :
    ∀ st ∈ createTableStmts t idxs, ifNotExistsOf st = true := by
  intro st hst
  simp only [createTableStmts, List.mem_cons, List.mem_map] at hst
  rcases hst with h | h | ⟨columns, _, h⟩ <;> subst h <;> rfl

/-- C7: schema bootstrap is idempotent. Every statement of the bootstrap
carries `IF NOT EXISTS`; with a driver that reports no failures the
bootstrap returns no error, and running it a second time against the schema
it produced returns no error and leaves that schema unchanged — no table
and no index is duplicated (table and index name uniqueness is also
preserved). The bootstrap establishes the policy table — columns `id`
(auto-increment primary key), `ptype` (required), `v0..v5` (optional) —
and the unique composite index `idx_<table>` over
`(ptype, coalesce(v0..v5, <empty>))`. -/
theorem schema_bootstrap_idempotent (env : ConnEnv) (t : String)
    (idxs : List (List String)) (s : PgSchema) (hd : ∀ st, env.ddlErr st = none) :
    (createTable env t idxs s).2.2 = none ∧
    createTable env t idxs ((createTable env t idxs s).2.1) =
      ((createTableStmts t idxs).map ConnEvent.exec,
       (createTable env t idxs s).2.1, none) ∧
    (∀ st ∈ createTableStmts t idxs, ifNotExistsOf st = true) ∧
    t ∈ ((createTable env t idxs s).2.1).tables.map Prod.fst ∧
    ("idx_" ++ t) ∈ ((createTable env t idxs s).2.1).idxs.map Prod.fst ∧
    ((s.tables.map Prod.fst).Nodup →
      (((createTable env t idxs s).2.1).tables.map Prod.fst).Nodup) ∧
    ((s.idxs.map Prod.fst).Nodup →
      (((createTable env t idxs s).2.1).idxs.map Prod.fst).Nodup) ∧
    tableStmt t = DDLStmt.createTable true t casbinColumns ∧
    uniqueIndexStmt t = DDLStmt.createIndex true true ("idx_" ++ t) t uniqueIndexExprs ∧
    (casbinColumns.filter (fun c => c.primaryKey)).map (fun c => c.name) = ["id"] ∧
    (casbinColumns.filter (fun c => c.autoIncrement)).map (fun c => c.name) = ["id"] ∧
    (casbinColumns.filter (fun c => c.notNull)).map (fun c => c.name) = ["id", "ptype"] ∧
    casbinColumns.map (fun c => c.name) =
      ["id", "ptype", "v0", "v1", "v2", "v3", "v4", "v5"] := by
  have hct := createTable_of_ine env hd t idxs s
  have hine := createTableStmts_all_ine t idxs
  have hidem := foldl_applyStmtD_idempotent (createTableStmts t idxs) s hine
  have hmem1 : tableStmt t ∈ createTableStmts t idxs := by
    simp [createTableStmts]
  have hmem2 : uniqueIndexStmt t ∈ createTableStmts t idxs := by
    simp [createTableStmts]
  refine ⟨by rw [hct], ?_, hine, ?_, ?_, ?_, ?_, rfl, rfl, by decide, by decide,
    by decide, by decide⟩
  · rw [hct]
    show createTable env t idxs ((createTableStmts t idxs).foldl applyStmtD s) = _
    rw [createTable_of_ine env hd t idxs ((createTableStmts t idxs).foldl applyStmtD s),
      hidem]
  · rw [hct]
    exact stmtEstablished_all_foldl (createTableStmts t idxs) s (tableStmt t) hmem1
  · rw [hct]
    exact stmtEstablished_all_foldl (createTableStmts t idxs) s (uniqueIndexStmt t) hmem2
  · intro h
    rw [hct]
    exact foldl_tables_nodup (createTableStmts t idxs) s h
  · intro h
    rw [hct]
    exact foldl_idxs_nodup (createTableStmts t idxs) s h

/-- Witness for C7: a concrete double bootstrap of `casbin_rule` with one
secondary index succeeds both times, the second run changes nothing, and
table names stay duplicate-free. -/
theorem schema_bootstrap_idempotent_witness :
    (createTable cleanConnEnv "casbin_rule" [["ptype", "v0"]] emptySchema).2.2 = none ∧
    createTable cleanConnEnv "casbin_rule" [["ptype", "v0"]]
        ((createTable cleanConnEnv "casbin_rule" [["ptype", "v0"]] emptySchema).2.1) =
      ((createTableStmts "casbin_rule" [["ptype", "v0"]]).map ConnEvent.exec,
       (createTable cleanConnEnv "casbin_rule" [["ptype", "v0"]] emptySchema).2.1,
       none) ∧
    (((createTable cleanConnEnv "casbin_rule" [["ptype", "v0"]]
      emptySchema).2.1).tables.map Prod.fst).Nodup := by
  have h := schema_bootstrap_idempotent cleanConnEnv "casbin_rule" [["ptype", "v0"]]
    emptySchema (fun _ => rfl)
  exact ⟨h.1, h.2.1, h.2.2.2.2.2.1 (by simp [emptySchema])⟩

/-- C8: construction is all-or-nothing. On the connection-string path an
open failure or a ping failure yields a connection error — with the opened
handle closed after a failed ping and no DDL executed — and any bootstrap
failure aborts construction with an error wrapped as
"failed to create table: ...". A constructed adapter exists exactly when
opening, the liveness probe, and the whole bootstrap succeeded; in every
failure case the result is an error, never an adapter. -/
theorem construction_all_or_nothing (env : ConnEnv) (s : PgSchema)
    (opts : List AdapterOption) :
    (∀ e, env.openErr = some e →
      (NewAdapter env s opts).2.2 = Except.error
        ((if (applyOptions opts defaultCfg).usePool then "failed to create connection pool: "
          else "failed to create connection: ") ++ e) ∧
      (NewAdapter env s opts).1 =
        [ConnEvent.openConn (applyOptions opts defaultCfg).usePool]) ∧
    (∀ e, env.openErr = none → env.pingErr = some e →
      (NewAdapter env s opts).2.2 = Except.error ("failed to ping database: " ++ e) ∧
      (NewAdapter env s opts).1 =
        [ConnEvent.openConn (applyOptions opts defaultCfg).usePool, ConnEvent.ping,
         ConnEvent.closeConn]) ∧
    (∀ e, env.openErr = none → env.pingErr = none →
      (createTable env (applyOptions opts defaultCfg).tableName
        (applyOptions opts defaultCfg).indexes s).2.2 = some e →
      (NewAdapter env s opts).2.2 = Except.error ("failed to create table: " ++ e)) ∧
    ((∃ a, (NewAdapter env s opts).2.2 = Except.ok a) ↔
      (env.openErr = none ∧ env.pingErr = none ∧
        (createTable env (applyOptions opts defaultCfg).tableName
          (applyOptions opts defaultCfg).indexes s).2.2 = none)) ∧
    (∀ e, (createTable env (applyOptions opts defaultCfg).tableName
        (applyOptions opts defaultCfg).indexes s).2.2 = some e →
      (NewAdapterWithPool env s opts).2.2 =
        Except.error ("failed to create table: " ++ e)) ∧
    (∀ e, (createTable env (applyOptions opts defaultCfg).tableName
        (applyOptions opts defaultCfg).indexes s).2.2 = some e →
      (NewAdapterWithConn env s opts).2.2 =
        Except.error ("failed to create table: " ++ e)) := by
  refine ⟨?_, ?_, ?_, ?_, ?_, ?_⟩
  · intro e he
    rcases hp : (applyOptions opts defaultCfg).usePool <;>
      simp [NewAdapter, hp, he]
  · intro e he hpe
    rcases hp : (applyOptions opts defaultCfg).usePool <;>
      simp [NewAdapter, hp, he, hpe]
  · intro e he hpe hce
    rcases hp : (applyOptions opts defaultCfg).usePool <;>
      simp [NewAdapter, NewAdapterWithPool, NewAdapterWithConn, hp, he, hpe, hce]
  · constructor
    · rintro ⟨a, ha⟩
      rcases ho : env.openErr with _ | e
      · rcases hpe : env.pingErr with _ | e
        · rcases hce : (createTable env (applyOptions opts defaultCfg).tableName
            (applyOptions opts defaultCfg).indexes s).2.2 with _ | e
          · exact ⟨rfl, rfl, rfl⟩
          · rcases hp : (applyOptions opts defaultCfg).usePool <;>
              simp [NewAdapter, NewAdapterWithPool, NewAdapterWithConn,
                hp, ho, hpe, hce] at ha
        · rcases hp : (applyOptions opts defaultCfg).usePool <;>
            simp [NewAdapter, hp, ho, hpe] at ha
      · rcases hp : (applyOptions opts defaultCfg).usePool <;>
          simp [NewAdapter, hp, ho] at ha
    · rintro ⟨ho, hpe, hce⟩
      rcases hp : (applyOptions opts defaultCfg).usePool
      · refine ⟨⟨(applyOptions opts defaultCfg).tableName,
          (applyOptions opts defaultCfg).database,
          (applyOptions opts defaultCfg).indexes, false, false⟩, ?_⟩
        simp [NewAdapter, NewAdapterWithConn, hp, ho, hpe, hce]
      · refine ⟨⟨(applyOptions opts defaultCfg).tableName,
          (applyOptions opts defaultCfg).database,
          (applyOptions opts defaultCfg).indexes, true, true⟩, ?_⟩
        simp [NewAdapter, NewAdapterWithPool, hp, ho, hpe, hce]
  · intro e hce
    simp [NewAdapterWithPool, hce]
  · intro e hce
    simp [NewAdapterWithConn, hce]

/-- Witness for C8: with a failing ping, construction returns the connection
error, closes the opened handle, and executes no DDL. -/
theorem construction_all_or_nothing_witness :
    (NewAdapter pingFailEnv emptySchema []).2.2 =
      Except.error "failed to ping database: timeout" ∧
    (NewAdapter pingFailEnv emptySchema []).1 =
      [ConnEvent.openConn false, ConnEvent.ping, ConnEvent.closeConn] := by
  have h := (construction_all_or_nothing pingFailEnv emptySchema []).2.1 "timeout" rfl rfl
  exact ⟨h.1, h.2⟩

lemma parseQuotedBody_escape (l : List Char) :
    parseQuotedBody (escapeQuotes l ++ ['"']) = some l := by
  induction l with
  | nil => rfl
  | cons c cs ih =>
    by_cases h : c = '"'
    · subst h
      rw [escapeQuotes]
      simp only [if_pos rfl, List.cons_append]
      rw [parseQuotedBody.eq_def]
      simp [ih]
    · rw [escapeQuotes]
      simp only [if_neg h, List.cons_append]
      rw [parseQuotedBody.eq_def]
      simp [h, ih]

lemma data_sanitizeIdent (s : String) :
    (sanitizeIdent s).data = '"' :: (escapeQuotes s.data ++ ['"']) := by
  simp [sanitizeIdent]

lemma parseQuotedIdent_sanitizeIdent (s : String) :
    parseQuotedIdent (sanitizeIdent s) = some s := by
  unfold parseQuotedIdent
  rw [data_sanitizeIdent]
  simp only [parseQuotedBody_escape, Option.map_some]
  cases s
  rfl

lemma sanitizeIdent_injective : Function.Injective sanitizeIdent := by
  intro a b h
  have ha := parseQuotedIdent_sanitizeIdent a
  rw [h, parseQuotedIdent_sanitizeIdent b] at ha
  exact (Option.some.inj ha).symm

/-- C9: for every requested secondary index, construction issues a
non-unique `CREATE INDEX IF NOT EXISTS` whose name is derived
deterministically as `idx_` + table name + `_` + underscore-joined column
names, with the statements placed and executed after the base bootstrap in
exactly the requested order, and with the table, index, and column
identifiers quoted/escaped (`sanitizeIdent`) before being embedded in the
DDL text; the quoting is sound — a quoted identifier parses back to
exactly its original content, so distinct identifiers never collide or
escape their quoted context. -/
theorem secondary_index_creation_deterministic_quoted (t : String)
    (columns : List String) (idxs : List (List String)) :
    (createTableStmts t idxs).drop 2 = idxs.map (createIndexStmt t) ∧
    createIndexStmt t columns = DDLStmt.createIndex true false
      ("idx_" ++ t ++ "_" ++ joinColumns "_" columns) t (columns.map IndexExpr.col) ∧
    createIndexSQL t columns =
      "CREATE INDEX IF NOT EXISTS " ++ sanitizeIdent (indexNameOf t columns) ++
        " ON " ++ sanitizeIdent t ++ "(" ++
        joinColumns ", " (columns.map sanitizeIdent) ++ ")" ∧
    (∀ env : ConnEnv, (∀ st, env.ddlErr st = none) →
      (createTable env t idxs emptySchema).1 =
        (createTableStmts t idxs).map ConnEvent.exec) ∧
    parseQuotedIdent (sanitizeIdent t) = some t ∧
    Function.Injective sanitizeIdent := by
  refine ⟨rfl, rfl, rfl, ?_, parseQuotedIdent_sanitizeIdent t, sanitizeIdent_injective⟩
  intro env hd
  rw [createTable_of_ine env hd t idxs emptySchema]

/-- Witness for C9: the concrete SQL text for one secondary index on the
default table, the executed statement order for a no-failure driver, and
the quoting round-trip on the default table name. -/
theorem secondary_index_creation_deterministic_quoted_witness :
    createIndexSQL "casbin_rule" ["ptype", "v0"] =
      "CREATE INDEX IF NOT EXISTS \"idx_casbin_rule_ptype_v0\" ON \"casbin_rule\"(\"ptype\", \"v0\")" ∧
    (createTable cleanConnEnv "casbin_rule" [["ptype", "v0"]] emptySchema).1 =
      (createTableStmts "casbin_rule" [["ptype", "v0"]]).map ConnEvent.exec ∧
    parseQuotedIdent (sanitizeIdent "casbin_rule") = some "casbin_rule" := by
  have h := secondary_index_creation_deterministic_quoted "casbin_rule" ["ptype", "v0"]
    [["ptype", "v0"]]
  exact ⟨rfl, h.2.2.2.1 cleanConnEnv (fun _ => rfl), h.2.2.2.2.1⟩

end PgxAdapter
